import Mathlib

/-!
Verification development for the tunetailor hybrid music-recommendation core
(server/spotifyService.ts). The TypeScript functions are shallowly embedded as
Lean definitions; external catalog calls (Spotify API) are modelled as a pure
environment record, and JavaScript numbers are modelled as exact rationals,
except where a claim hinges on IEEE-754 rounding (Math.floor(limit * 0.7)),
which is modelled exactly.
-/

/-- Substring test helper: does the second list start with the first list?
Models the initial segment check underlying JavaScript String.prototype.includes. -/
def startsWithChars : List Char → List Char → Bool
  | [], _ => true
  | _ :: _, [] => false
  | p :: ps, c :: cs => p == c && startsWithChars ps cs

/-- Does the second list contain the first list as a contiguous run?
Models JavaScript String.prototype.includes on the char level. -/
def containsChars (pat : List Char) : List Char → Bool
  | [] => startsWithChars pat []
  | c :: rest => startsWithChars pat (c :: rest) || containsChars pat rest

/-- hay.includes(pat) for strings (JavaScript semantics: true iff pat occurs
contiguously in hay, the empty pattern always matches). -/
def strContains (hay pat : String) : Bool :=
  containsChars pat.data hay.data

/-- String.prototype.toLowerCase, modelled character-wise. Char.toLower
lowercases ASCII letters; the full Unicode case mapping is not modelled (all
vocabulary entries, hints and concrete inputs in this development are ASCII or
Korean, and Hangul has no case). -/
def lowerStr (s : String) : String :=
  String.mk (s.data.map Char.toLower)

/-- The whitespace characters relevant to String.prototype.trim here (ASCII
space, tab, newline, carriage return; the exotic Unicode space classes never
occur in this development). -/
def isJsSpace (c : Char) : Bool :=
  (c == ' ') || (c == '\t') || (c == '\n') || (c == '\r')

/-- Drop leading whitespace. -/
def dropLeadingWS : List Char → List Char
  | [] => []
  | c :: rest => if isJsSpace c then dropLeadingWS rest else c :: rest

/-- String.prototype.trim, modelled character-wise. -/
def trimStr (s : String) : String :=
  String.mk ((dropLeadingWS (dropLeadingWS s.data).reverse).reverse)

/-- The Track record of server/spotifyService.ts (fields the recommendation
logic reads; the URL/image/spotifyId fields are never inspected by the embedded
control flow and are omitted). An absent optional artistIds array and an empty
one behave identically downstream and are both modelled as []. -/
structure Track where
  id : String
  name : String := ""
  artists : List String := []
  artistIds : List String := []
  album : String := ""
  duration : Nat := 0
  releaseYear : Option Int := none
  popularity : Option Nat := none
deriving Repr, DecidableEq

/-- Pure model of the Spotify catalog calls made by the pipeline: per-artist
top tracks (artists.topTracks, already converted to Track records by the code
at spotifyService.ts:804-817), track search results per query string
(spotify.search, 20-item pages), and the artist-id → genre-tags map produced
by getArtistsGenresMap. -/
structure CatalogEnv where
  topTracks : String → List Track
  searchQuery : String → List Track
  artistGenres : String → List String

/-- The params record of buildHybridRecommendations (spotifyService.ts:895-906).
The targetEnergy / targetValence / targetDanceability fields are accepted by the
source but never read in the body, so they are omitted. The year range is the
pair {from, to}. -/
structure HybridParams where
  genres : List String := []
  seedArtistIds : List String := []
  userTopArtistIds : List String := []
  limit : Option Int := none
  yearRange : Option (Int × Int) := none
  keywords : List String := []

/-- limit = Math.min(100, Math.max(1, params.limit ?? 20))
(spotifyService.ts:911). -/
def clampNat (o : Option Int) : Nat :=
  (min 100 (max 1 (o.getD 20))).toNat

/-- One of the two seed-collection loops of spotifyService.ts:913-921: push the
id when truthy and not yet present, then break once five seeds are collected
(the length check runs after the push, so a second loop that starts at five
can still push a sixth seed before breaking, exactly as in the source). -/
def seedsLoop (acc : List String) : List String → List String
  | [] => acc
  | i :: rest =>
    let acc2 := if i ≠ "" ∧ i ∉ acc then acc ++ [i] else acc
    if 5 ≤ acc2.length then acc2 else seedsLoop acc2 rest

/-- Array.from(new Set(l)): first-occurrence deduplication. -/
def dedupGo (seenAcc : List String) : List String → List String
  | [] => []
  | x :: xs => if x ∈ seenAcc then dedupGo seenAcc xs else x :: dedupGo (x :: seenAcc) xs

/-- Array.from(new Set(l)) preserving first-occurrence order. -/
def dedupStrings (l : List String) : List String :=
  dedupGo [] l

/-- The common merge-by-id inner loop (spotifyService.ts:800-819 and 952-966):
skip items with a falsy id or an id already in the pool, append otherwise,
and break as soon as the pool size reaches the cap (the size check runs after
the append, so the pool can only stop at, never exceed, the cap when entered
below it). -/
def mergeById (cap : Nat) : List Track → List Track → List Track
  | pool, [] => pool
  | pool, t :: ts =>
    if t.id = "" ∨ t.id ∈ pool.map Track.id then mergeById cap pool ts
    else
      let pool2 := pool ++ [t]
      if cap ≤ pool2.length then pool2 else mergeById cap pool2 ts

/-- The per-artist loop of getTopTracksForArtists (spotifyService.ts:793-824):
an artist is skipped when its id is falsy or the pool has already reached the
aggregate budget artistIds.length * limitPerArtist; otherwise all of its top
tracks are merged under that same aggregate budget. -/
def topTracksGo (env : CatalogEnv) (budget : Nat) : List String → List Track → List Track
  | [], pool => pool
  | aid :: rest, pool =>
    if aid = "" ∨ budget ≤ pool.length then topTracksGo env budget rest pool
    else topTracksGo env budget rest (mergeById budget pool (env.topTracks aid))

/-- getTopTracksForArtists (spotifyService.ts:778-827) with
limitPerArtist = Math.max(1, options.limitPerArtist ?? 3) already resolved to
the caller-supplied value. -/
def getTopTracksForArtists (env : CatalogEnv) (artistIds : List String)
    (limitPerArtist : Nat) : List Track :=
  topTracksGo env (artistIds.length * max 1 limitPerArtist) artistIds []

/-- The track mapping applied to structured-search results
(spotifyService.ts:954-964): it copies id/name/artists/album/duration but,
unlike the top-tracks mapping, does not populate artistIds, releaseYear or
popularity. -/
def searchProj (t : Track) : Track :=
  { t with artistIds := [], releaseYear := none, popularity := none }

/-- The interpolated year qualifier string (spotifyService.ts:933): empty when
no year range was extracted. -/
def yearsStr (r : Option (Int × Int)) : String :=
  match r with
  | none => ""
  | some (f, t0) => toString f ++ "-" ++ toString t0

/-- The structured-search query list (spotifyService.ts:932-944): one
genre:<g> query per resolved genre seed, with a year:<from>-<to> qualifier when
a range exists, followed by each non-blank trimmed keyword as a free-text
query; a lone year:<from>-<to> query when that list would otherwise be empty
but a range exists. -/
def queriesOf (params : HybridParams) : List String :=
  let years := yearsStr params.yearRange
  let genreQs := params.genres.map fun g =>
    if years ≠ "" then "genre:" ++ g ++ " year:" ++ years else "genre:" ++ g
  let kwQs := (params.keywords.map trimStr).filter fun q => q ≠ ""
  let qs := genreQs ++ kwQs
  if qs = [] ∧ years ≠ "" then ["year:" ++ years] else qs

/-- The per-query merge loop of the secondary source
(spotifyService.ts:949-971): each query's results are merged by id into the
pool under the cap limit * 2, and the query loop itself stops once the pool
reaches that cap. -/
def searchGo (env : CatalogEnv) (cap : Nat) : List String → List Track → List Track
  | [], pool => pool
  | q :: qs, pool =>
    let pool2 := mergeById cap pool ((env.searchQuery q).map searchProj)
    if cap ≤ pool2.length then pool2 else searchGo env cap qs pool2

/-- The candidate pool of buildHybridRecommendations
(spotifyService.ts:913-974): top tracks of the (deduplicated, ≤ 12) seed
artists, extended by merged structured-search results only when the primary
source produced fewer tracks than the requested limit. -/
def candidatePool (env : CatalogEnv) (params : HybridParams) : List Track :=
  let limit := clampNat params.limit
  let seeds := seedsLoop (seedsLoop [] params.seedArtistIds) params.userTopArtistIds
  let candidateArtistIds := (dedupStrings seeds).take 12
  let artistTracks := getTopTracksForArtists env candidateArtistIds 3
  if artistTracks.length < limit then
    searchGo env (2 * limit) ((queriesOf params).take 6) artistTracks
  else artistTracks

/-- ROCK_HINTS (spotifyService.ts:980-983), in source order. -/
def ROCK_HINTS : List String :=
  ["rock", "alt-rock", "alternative rock", "indie-rock", "hard rock",
   "classic rock", "post-rock", "garage rock", "grunge", "britpop",
   "pop rock", "punk", "emo", "nu metal", "metal", "stoner rock",
   "math rock", "shoegaze"]

/-- isRockish (spotifyService.ts:984-994): some artist of the track carries a
genre tag that contains some rock hint as a substring (case-insensitively). -/
def isRockish (gm : String → List String) (ids : List String) : Bool :=
  ids.any fun id => (gm id).any fun g => ROCK_HINTS.any fun h => strContains (lowerStr g) h

/-- keywordScore (spotifyService.ts:997-1008): for every distinct lowercased
keyword, +0.8 when the lowercased track name contains it and +0.6 when some
lowercased artist name contains it. -/
def keywordScore (kwSet : List String) (t : Track) : ℚ :=
  (kwSet.map fun kw =>
    if kw = "" then 0
    else (if strContains (lowerStr t.name) kw then (4 : ℚ)/5 else 0)
      + (if t.artists.any fun a => strContains (lowerStr a) kw then (3 : ℚ)/5 else 0)).sum

/-- yearScore (spotifyService.ts:1010-1019): flat 0.2 when no range was
extracted; 0 for an unknown release year; 1.2 inside the range; otherwise
max(0, 1.0 - dist/20) where dist is the distance to the nearer end of the
range. (The source also treats the impossible release year 0 as missing;
release years parsed from dates are never 0, so that JavaScript falsiness
quirk is not modelled.) -/
def yearScore (range : Option (Int × Int)) (t : Track) : ℚ :=
  match range with
  | none => (1 : ℚ)/5
  | some (f, t0) =>
    match t.releaseYear with
    | none => 0
    | some yr =>
      if f ≤ yr ∧ yr ≤ t0 then (6 : ℚ)/5
      else max 0 (1 - ((min (yr - f).natAbs (yr - t0).natAbs : Nat) : ℚ) / 20)

/-- genreScore (spotifyService.ts:1021): +1.5 for rock-hint-matching tracks
and -0.7 for all others, independently of which genres the user requested. -/
def genreScore (gm : String → List String) (t : Track) : ℚ :=
  if isRockish gm t.artistIds then (3 : ℚ)/2 else -((7 : ℚ)/10)

/-- popularityScore (spotifyService.ts:1022): ((popularity ?? 50)/100) * 0.6. -/
def popularityScore (t : Track) : ℚ :=
  (((t.popularity.getD 50 : Nat) : ℚ) / 100) * ((3 : ℚ)/5)

/-- The composite score of spotifyService.ts:1034 without the positional
tiebreak term. -/
def compositeScore (gm : String → List String) (range : Option (Int × Int))
    (kwSet : List String) (t : Track) : ℚ :=
  genreScore gm t + yearScore range t + keywordScore kwSet t + popularityScore t

/-- Stable insertion step for the descending sort: a later element passes all
earlier elements with a strictly larger or equal score, reproducing the stable
JavaScript Array.prototype.sort with comparator (a, b) => b.score - a.score. -/
def insertDesc (x : Track × ℚ) : List (Track × ℚ) → List (Track × ℚ)
  | [] => [x]
  | y :: ys => if y.2 ≤ x.2 then x :: y :: ys else y :: insertDesc x ys

/-- Stable descending-by-score sort (insertion sort; agrees with every stable
sort under this comparator, hence with the JavaScript engine sort). -/
def sortDesc : List (Track × ℚ) → List (Track × ℚ)
  | [] => []
  | x :: xs => insertDesc x (sortDesc xs)

/-- The scoring and sorting stage (spotifyService.ts:1031-1037): attach
compositeScore plus the strictly decreasing positional tiebreak
(filtered.length - i) * 0.001, sort descending, and drop the scores. -/
def scoredOf (gm : String → List String) (range : Option (Int × Int))
    (kwSet : List String) (filtered : List Track) : List Track :=
  let n := filtered.length
  (sortDesc (filtered.enum.map fun p =>
    (p.2, compositeScore gm range kwSet p.2 + ((n - p.1 : Nat) : ℚ) * ((1 : ℚ)/1000)))).map
    Prod.fst

/-- The fallback artist-name key (spotifyService.ts:1050): first artist name
when truthy, else the literal key "unknown". -/
def nameKey (t : Track) : String :=
  match t.artists with
  | a :: _ => if a = "" then "unknown" else a
  | [] => "unknown"

/-- The per-artist grouping key of pickWithCap (spotifyService.ts:1049-1050):
first artist id when present and truthy, else the first artist name, else
"unknown". -/
def artistKey (t : Track) : String :=
  match t.artistIds with
  | i :: _ => if i = "" then nameKey t else i
  | [] => nameKey t

/-- counts.get(key) || 0 on the association-list model of the Map. -/
def countOf : List (String × Nat) → String → Nat
  | [], _ => 0
  | (k, n) :: rest, key => if k = key then n else countOf rest key

/-- counts.set(key, cur + 1) on the association-list model of the Map. -/
def bumpCount : List (String × Nat) → String → List (String × Nat)
  | [], key => [(key, 1)]
  | (k, n) :: rest, key =>
    if k = key then (k, n + 1) :: rest else (k, n) :: bumpCount rest key

/-- The greedy selection loop of pickWithCap (spotifyService.ts:1042-1058):
stop at the limit, skip already-seen track ids, skip tracks whose artist key
has reached the cap, otherwise take the track and bump its artist count. -/
def pickGo (limit cap : Nat) :
    List Track → List String → List (String × Nat) → List Track → List Track
  | [], _, _, out => out
  | t :: rest, seen, counts, out =>
    if limit ≤ out.length then out
    else if t.id ∈ seen then pickGo limit cap rest seen counts out
    else
      let key := artistKey t
      if cap ≤ countOf counts key then pickGo limit cap rest seen counts out
      else pickGo limit cap rest (t.id :: seen) (bumpCount counts key) (out ++ [t])

/-- pickWithCap (spotifyService.ts:1042-1058). -/
def pickWithCap (scored : List Track) (limit cap : Nat) : List Track :=
  pickGo limit cap scored [] [] []

/-- The exact significand of the IEEE-754 double 0.7, i.e. 0.7 as stored is
DOUBLE_07_NUM / 2 ^ 53. -/
def DOUBLE_07_NUM : Nat := 6305039478318694

/-- Fuelled bit-length helper (the fuel 64 covers every value arising here,
since the products n * DOUBLE_07_NUM stay below 2 ^ 60 for n ≤ 100). -/
def bitLenAux : Nat → Nat → Nat
  | 0, _ => 0
  | fuel + 1, n => if n = 0 then 0 else bitLenAux fuel (n / 2) + 1

/-- Number of binary digits of n (0 for 0). -/
def bitLen (n : Nat) : Nat := bitLenAux 64 n

/-- Math.floor(n * 0.7) as JavaScript computes it: the exact product
n * (0.7 as a double) is rounded to the nearest double (53 significant bits,
ties to even) and then floored. On the clamped limit domain 0..100 this agrees
with the exact rational floor of 7n/10 everywhere except n = 90, where the
double product 62.99999999999999 floors to 62 rather than 63. -/
def jsFloorMul07 (n : Nat) : Nat :=
  let p := n * DOUBLE_07_NUM
  if p = 0 then 0
  else
    let b := bitLen p
    if b ≤ 53 then p / 2 ^ 53
    else
      let s := b - 53
      let q := p / 2 ^ s
      let r := p % 2 ^ s
      let half := 2 ^ (s - 1)
      let m := if half < r ∨ (r = half ∧ q % 2 = 1) then q + 1 else q
      m / 2 ^ (53 - s)

/-- The two-pass selection (spotifyService.ts:1060-1063): keep the cap-1 pass
unless its length is strictly below Math.floor(limit * 0.7), in which case the
greedy selection is re-run with cap 2. -/
def selectTracks (scored : List Track) (limit : Nat) : List Track :=
  let primary := pickWithCap scored limit 1
  if primary.length < jsFloorMul07 limit then pickWithCap scored limit 2 else primary

/-- The final pick including the closing finalPick.slice(0, limit)
(spotifyService.ts:1065). -/
def finalPickOf (scored : List Track) (limit : Nat) : List Track :=
  (selectTracks scored limit).take limit

/-- buildHybridRecommendations (spotifyService.ts:894-1066) on the catalog
environment model: build the candidate pool, pre-filter to rock-hint matches
when at least max(10, Math.floor(limit * 0.6)) of them exist (on the clamped
limit domain 0..100 the double product n * 0.6 floors exactly like the
rational 6n/10, so the floor is modelled as 6 * limit / 10), score, sort and
run the capped two-pass selection. -/
def buildHybridRecommendations (env : CatalogEnv) (params : HybridParams) : List Track :=
  let limit := clampNat params.limit
  let pool := candidatePool env params
  let gm := env.artistGenres
  let rockCandidates := pool.filter fun t => isRockish gm t.artistIds
  let filtered := if max 10 (6 * limit / 10) ≤ rockCandidates.length then rockCandidates else pool
  let kwSet := dedupStrings (params.keywords.map lowerStr)
  finalPickOf (scoredOf gm params.yearRange kwSet filtered) limit

/-- Drop Unicode combining diacritics U+0300..U+036F, the replace step of
sanitizeGenre (spotifyService.ts:93). -/
def stripCombining (l : List Char) : List Char :=
  l.filter fun c => !(decide (0x300 ≤ c.toNat) && decide (c.toNat ≤ 0x36F))

/-- sanitizeGenre (spotifyService.ts:89-95): lowercase, strip combining
diacritics, trim. The NFKD normalization step is not modelled: it is the
identity on the ASCII strings appearing in this development, and both sides of
every comparison in the source pass through the same function. Char.toLower
lowercases ASCII letters, which covers the vocabulary and all concrete inputs
used here. -/
def sanitizeGenre (s : String) : String :=
  trimStr (String.mk (stripCombining (lowerStr s).data))

/-- KNOWN_SPOTIFY_GENRES (spotifyService.ts:343-348), in source order. -/
def KNOWN_SPOTIFY_GENRES : List String :=
  ["acoustic", "afrobeat", "alt-rock", "alternative", "ambient", "blues",
   "chill", "classical", "country", "dance", "electronic", "folk", "funk",
   "garage", "gospel", "groove", "hip-hop", "house", "indie", "indie-pop",
   "jazz", "latin", "metal", "new-age", "pop", "punk", "r-n-b", "reggae",
   "rock", "soul", "techno", "trance"]

/-- One entry of the curated alias table. -/
structure AliasEntry where
  keys : List String
  value : String

/-- GENRE_ALIAS_ENTRIES (spotifyService.ts:39-56), in source order. -/
def GENRE_ALIAS_ENTRIES : List AliasEntry :=
  [{ keys := ["록", "락", "락앤롤", "rock n roll", "rock-and-roll"], value := "rock" },
   { keys := ["발라드", "ballad"], value := "ballad" },
   { keys := ["재즈", "jaz", "jazz"], value := "jazz" },
   { keys := ["힙합", "힙합음악", "hiphop", "hip-hop"], value := "hip-hop" },
   { keys := ["인디", "indie"], value := "indie" },
   { keys := ["인디팝", "indie pop"], value := "indie-pop" },
   { keys := ["인디록", "indie rock"], value := "indie-rock" },
   { keys := ["일렉트로닉", "electro", "electronic", "edm"], value := "electronic" },
   { keys := ["신스", "신스팝", "synth", "synthpop", "synth pop"], value := "synth-pop" },
   { keys := ["포크", "포크록", "folk"], value := "folk" },
   { keys := ["포스트록", "post rock", "postrock"], value := "post-rock" },
   { keys := ["스튜디", "study"], value := "study" },
   { keys := ["lofi", "lo-fi", "로파이"], value := "lo-fi" },
   { keys := ["차분한", "calm", "chill"], value := "chill" },
   { keys := ["집중", "focus"], value := "focus" },
   { keys := ["드라이브", "drive"], value := "road-trip" }]

/-- FALLBACK_SEEDS (spotifyService.ts:28-37); referenced by the spec's
GenreNormalizer fallback-injection sentence but never injected by the live
normalizeGenres. -/
def FALLBACK_SEEDS : List String :=
  ["pop", "rock", "indie", "alternative", "electronic", "hip-hop", "jazz", "chill"]

/-- The alias scan of tryResolve (spotifyService.ts:364-369): first entry whose
raw key list contains the sanitized term and whose value is a known seed. -/
def findAlias (sanitized : String) : List AliasEntry → Option String
  | [] => none
  | e :: rest =>
    if sanitized ∈ e.keys ∧ e.value ∈ KNOWN_SPOTIFY_GENRES then some e.value
    else findAlias sanitized rest

/-- The substring fuzzy scan of tryResolve (spotifyService.ts:371-376): first
seed that contains the sanitized term or is contained in it. -/
def findFuzzy (sanitized : String) : List String → Option String
  | [] => none
  | seed :: rest =>
    if strContains seed sanitized || strContains sanitized seed then some seed
    else findFuzzy sanitized rest

/-- tryResolve of the live normalizeGenres (spotifyService.ts:355-379):
direct vocabulary membership, then alias lookup, then substring fuzzy match. -/
def tryResolve (term : String) : Option String :=
  let sanitized := sanitizeGenre term
  if sanitized = "" then none
  else if sanitized ∈ KNOWN_SPOTIFY_GENRES then some sanitized
  else
    match findAlias sanitized GENRE_ALIAS_ENTRIES with
    | some v => some v
    | none => findFuzzy sanitized KNOWN_SPOTIFY_GENRES

/-- The input loop of normalizeGenres (spotifyService.ts:381-390): blank terms
are skipped entirely, resolved seeds are collected in first-resolution order
without duplicates, unresolved terms are appended to unmatched. -/
def normGo : List String → List String → List String → List String × List String
  | [], res, unm => (res, unm)
  | i :: rest, res, unm =>
    if trimStr i = "" then normGo rest res unm
    else
      match tryResolve i with
      | some m => normGo rest (if m ∈ res then res else res ++ [m]) unm
      | none => normGo rest res (unm ++ [i])

/-- The live normalizeGenres (spotifyService.ts:336-402), returning
(seedGenres, unmatched). Unlike the older revision embedded in aiService.ts
(lines 444-530 of that file), it injects no fallback seeds and caps nothing. -/
def normalizeGenres (inputs : List String) : List String × List String :=
  normGo inputs [] []

/-- Numeric value of an ASCII digit. -/
def digitVal (c : Char) : Nat := c.toNat - 48

/-- Parse exactly four leading digits. -/
def take4Digits : List Char → Option (Nat × List Char)
  | a :: b :: c :: d :: rest =>
    if a.isDigit && b.isDigit && c.isDigit && d.isDigit then
      some (1000 * digitVal a + 100 * digitVal b + 10 * digitVal c + digitVal d, rest)
    else none
  | _ => none

/-- Parse exactly two leading digits. -/
def take2Digits : List Char → Option (Nat × List Char)
  | a :: b :: rest =>
    if a.isDigit && b.isDigit then some (10 * digitVal a + digitVal b, rest)
    else none
  | _ => none

/-- Modelled from the spec: the range separators of the YearRangeExtractor
(spec 4.2 step 1): "-", "~", or " to ". The extractor itself is not present
under src/; only its output type (the yearRange parameter of
buildHybridRecommendations) is. -/
def stripRangeSep : List Char → Option (List Char)
  | '-' :: r => some r
  | '~' :: r => some r
  | ' ' :: 't' :: 'o' :: ' ' :: r => some r
  | _ => none

/-- Modelled from the spec: step 1 of the YearRangeExtractor, the first
explicit numeric range (4 digits, separator, 4 digits) in the text. -/
def scanExplicit : List Char → Option (Int × Int)
  | [] => none
  | c :: rest =>
    match take4Digits (c :: rest) with
    | some (a, r1) =>
      (match stripRangeSep r1 with
       | some r2 =>
         match take4Digits r2 with
         | some (b, _) => some ((a : Int), (b : Int))
         | none => scanExplicit rest
       | none => scanExplicit rest)
    | none => scanExplicit rest

/-- Modelled from the spec: the decade suffix, "s" or the Korean "년대". -/
def decadeSuffix : List Char → Bool
  | 's' :: _ => true
  | '년' :: '대' :: _ => true
  | _ => false

/-- Modelled from the spec: century disambiguation for 2-digit decades
(value ≤ 29 means the 2000s, otherwise the 1900s). -/
def twoDigitBase (v : Nat) : Int :=
  if v ≤ 29 then 2000 + (v : Int) else 1900 + (v : Int)

/-- Modelled from the spec: steps 2 and 3 of the YearRangeExtractor, the first
4-digit or 2-digit decade form not starting inside a longer digit run,
expanded to its 10-year span. -/
def scanDecade (prevDigit : Bool) : List Char → Option (Int × Int)
  | [] => none
  | c :: rest =>
    if prevDigit then scanDecade c.isDigit rest
    else
      match take4Digits (c :: rest) with
      | some (d, r1) =>
        if decadeSuffix r1 then some ((d : Int), (d : Int) + 9)
        else scanDecade c.isDigit rest
      | none =>
        match take2Digits (c :: rest) with
        | some (v, r1) =>
          if decadeSuffix r1 then some (twoDigitBase v, twoDigitBase v + 9)
          else scanDecade c.isDigit rest
        | none => scanDecade c.isDigit rest

/-- Modelled from the spec: the early/mid/late narrowing of a decade span
(first 3 years, years 4-7, final 3 years); when several modifier words occur,
the earlier one in this chain wins (the spec fixes no priority). -/
def applyModifier (cs : List Char) (f t0 : Int) : Int × Int :=
  if containsChars ("early".data) cs then (f, f + 2)
  else if containsChars ("mid".data) cs then (f + 3, f + 6)
  else if containsChars ("late".data) cs then (t0 - 2, t0)
  else (f, t0)

/-- Modelled from the spec: extractYearRange (spec 4.2), a pure function from
free text to an optional inclusive year range, trying explicit numeric ranges
first, then decade forms narrowed by an early/mid/late modifier. The function
itself is absent from src/; only the yearRange field it feeds appears there. -/
def extractYearRange (s : String) : Option (Int × Int) :=
  let cs := (lowerStr s).data
  match scanExplicit cs with
  | some r => some r
  | none =>
    match scanDecade false cs with
    | some (f, t0) => some (applyModifier cs f t0)
    | none => none

/-- The caller-visible failure classes of the pipeline core (spec 7). -/
inductive PipelineError where
  | noCandidates
deriving Repr, DecidableEq

/-- Modelled from the spec: the pipeline wrapper that maps an empty final
candidate pool to the NoCandidates failure (spec 7). The route code invoking
buildHybridRecommendations is not under src/ (the routes.ts present there uses
an older flow, whose generate-playlist handler likewise answers a 404 error
rather than an empty success when no tracks were found); the candidate pool
and selection underneath are the src/ embedding above. -/
def runPipeline (env : CatalogEnv) (params : HybridParams) :
    Except PipelineError (List Track) :=
  if candidatePool env params = [] then Except.error PipelineError.noCandidates
  else Except.ok (buildHybridRecommendations env params)

/-- Claim C2's selector, following the spec wording: the relaxed pass runs if
and only if the primary pass yields fewer than 70 percent of the requested
limit, with the threshold as an exact rational comparison. To be diffed
against selectTracks, which uses Math.floor(limit * 0.7). -/
def selectTracksClaim (scored : List Track) (limit : Nat) : List Track :=
  let primary := pickWithCap scored limit 1
  if 10 * primary.length < 7 * limit then pickWithCap scored limit 2 else primary

/-- Seven scored candidates over six distinct artists (artist a1 owns two
tracks), already in descending score order; fixture for claim C2. -/
def scoredC2 : List Track :=
  [{ id := "t1", artistIds := ["a1"] },
   { id := "t2", artistIds := ["a2"] },
   { id := "t3", artistIds := ["a3"] },
   { id := "t4", artistIds := ["a4"] },
   { id := "t5", artistIds := ["a5"] },
   { id := "t6", artistIds := ["a6"] },
   { id := "t7", artistIds := ["a1"] }]

/-- Catalog fixture for claim C9: artist a has seven top tracks, artist b has
one. -/
def envC9 : CatalogEnv where
  topTracks := fun aid =>
    if aid = "a" then
      [{ id := "a1" }, { id := "a2" }, { id := "a3" }, { id := "a4" },
       { id := "a5" }, { id := "a6" }, { id := "a7" }]
    else if aid = "b" then [{ id := "b1" }] else []
  searchQuery := fun _ => []
  artistGenres := fun _ => []

/-- Catalog fixture with no data at all: every lookup is empty. -/
def envEmpty : CatalogEnv where
  topTracks := fun _ => []
  searchQuery := fun _ => []
  artistGenres := fun _ => []

/-- Preference fixture with no seeds, no genres, no keywords and no range. -/
def paramsEmpty : HybridParams := {}

/-- Catalog fixture for claim C3: one artist with a single top track. -/
def envOne : CatalogEnv where
  topTracks := fun aid => if aid = "a" then [{ id := "h1" }] else []
  searchQuery := fun _ => []
  artistGenres := fun _ => []

/-- Preference fixture for claim C3: one seed artist, limit 1. -/
def paramsOne : HybridParams := { seedArtistIds := ["a"], limit := some 1 }

/-- Genre-map fixture for claim C7: artist ar1 is tagged pop only. -/
def gmC7 : String → List String := fun a => if a = "ar1" then ["pop"] else []

/-- Track fixture for claim C7, by the pop-tagged artist ar1. -/
def tC7 : Track := { id := "x1", artistIds := ["ar1"] }

/-- Track fixture inside the year range 2000-2010. -/
def tIn : Track := { id := "y0", releaseYear := some 2005 }

/-- Track fixture one year outside the range 2000-2010. -/
def tOut1 : Track := { id := "y1", releaseYear := some 2011 }

/-- Track fixture two years outside the range 2000-2010. -/
def tOut2 : Track := { id := "y2", releaseYear := some 2012 }

/-! ## Lemmas about the greedy capped selection -/

theorem nodup_append_singleton (l : List Track) (t : Track)
    (hnd : (l.map Track.id).Nodup) (hni : t.id ∉ l.map Track.id) :
    ((l ++ [t]).map Track.id).Nodup := by
  rw [List.map_append]
  simp [List.nodup_append, hnd, hni]

theorem countOf_bump (m : List (String × Nat)) (key k : String) :
    countOf (bumpCount m key) k = countOf m k + (if k = key then 1 else 0) := by
  induction m with
  | nil =>
    by_cases h : k = key
    · subst h; simp [bumpCount, countOf]
    · simp [bumpCount, countOf, h, Ne.symm h]
  | cons p rest ih =>
    obtain ⟨k2, n⟩ := p
    by_cases hk : k2 = key
    · subst hk
      by_cases h : k2 = k
      · subst h; simp [bumpCount, countOf]
      · simp [bumpCount, countOf, h, Ne.symm h]
    · by_cases h : k2 = k
      · subst h
        have : ¬ k2 = key := hk
        simp [bumpCount, countOf, hk, this, hk]
      · simp [bumpCount, countOf, hk, h, ih]

theorem pickGo_append (limit cap : Nat) (l : List Track) :
    ∀ (seen : List String) (counts : List (String × Nat)) (out : List Track),
    ∃ tail, pickGo limit cap l seen counts out = out ++ tail := by
  induction l with
  | nil => intro seen counts out; exact ⟨[], by simp [pickGo]⟩
  | cons t rest ih =>
    intro seen counts out
    by_cases h1 : limit ≤ out.length
    · exact ⟨[], by simp [pickGo, h1]⟩
    · by_cases h2 : t.id ∈ seen
      · simpa [pickGo, h1, h2] using ih seen counts out
      · by_cases h3 : cap ≤ countOf counts (artistKey t)
        · simpa [pickGo, h1, h2, h3] using ih seen counts out
        · obtain ⟨tail, htail⟩ :=
            ih (t.id :: seen) (bumpCount counts (artistKey t)) (out ++ [t])
          exact ⟨t :: tail, by simp [pickGo, h1, h2, h3, htail]⟩

theorem pickGo_nodup (limit cap : Nat) (l : List Track) :
    ∀ (seen : List String) (counts : List (String × Nat)) (out : List Track),
    (out.map Track.id).Nodup → (∀ s ∈ out.map Track.id, s ∈ seen) →
    ((pickGo limit cap l seen counts out).map Track.id).Nodup := by
  induction l with
  | nil => intro seen counts out hnd _; simpa [pickGo] using hnd
  | cons t rest ih =>
    intro seen counts out hnd hsub
    by_cases h1 : limit ≤ out.length
    · simpa [pickGo, h1] using hnd
    · by_cases h2 : t.id ∈ seen
      · simpa [pickGo, h1, h2] using ih seen counts out hnd hsub
      · by_cases h3 : cap ≤ countOf counts (artistKey t)
        · simpa [pickGo, h1, h2, h3] using ih seen counts out hnd hsub
        · have hni : t.id ∉ out.map Track.id := fun hm => h2 (hsub _ hm)
          have hnd2 := nodup_append_singleton out t hnd hni
          have hsub2 : ∀ s ∈ (out ++ [t]).map Track.id, s ∈ t.id :: seen := by
            intro s hs
            rw [List.map_append] at hs
            rcases List.mem_append.mp hs with hs | hs
            · exact List.mem_cons_of_mem _ (hsub _ hs)
            · simp at hs; simp [hs]
          simpa [pickGo, h1, h2, h3] using
            ih (t.id :: seen) (bumpCount counts (artistKey t)) (out ++ [t]) hnd2 hsub2

theorem pickGo_cap (limit cap : Nat) (l : List Track) :
    ∀ (seen : List String) (counts : List (String × Nat)) (out : List Track),
    (∀ k, countOf counts k = (out.filter fun t => artistKey t == k).length) →
    (∀ k, (out.filter fun t => artistKey t == k).length ≤ cap) →
    ∀ k, ((pickGo limit cap l seen counts out).filter fun t => artistKey t == k).length ≤ cap := by
  induction l with
  | nil => intro seen counts out _ hle k; simpa [pickGo] using hle k
  | cons t rest ih =>
    intro seen counts out hcnt hle k
    by_cases h1 : limit ≤ out.length
    · simpa [pickGo, h1] using hle k
    · by_cases h2 : t.id ∈ seen
      · simpa [pickGo, h1, h2] using ih seen counts out hcnt hle k
      · by_cases h3 : cap ≤ countOf counts (artistKey t)
        · simpa [pickGo, h1, h2, h3] using ih seen counts out hcnt hle k
        · have hlt : (out.filter fun x => artistKey x == artistKey t).length < cap := by
            have := hcnt (artistKey t); omega
          have hcnt2 : ∀ k2, countOf (bumpCount counts (artistKey t)) k2 =
              ((out ++ [t]).filter fun x => artistKey x == k2).length := by
            intro k2
            rw [countOf_bump, hcnt k2, List.filter_append]
            by_cases hk : k2 = artistKey t
            · subst hk; simp
            · simp [hk, Ne.symm hk]
          have hle2 : ∀ k2, ((out ++ [t]).filter fun x => artistKey x == k2).length ≤ cap := by
            intro k2
            rw [List.filter_append]
            by_cases hk : k2 = artistKey t
            · subst hk; simp; omega
            · simp [Ne.symm hk]; exact hle k2
          simpa [pickGo, h1, h2, h3] using
            ih (t.id :: seen) (bumpCount counts (artistKey t)) (out ++ [t]) hcnt2 hle2 k

theorem pickWithCap_nodup (scored : List Track) (limit cap : Nat) :
    ((pickWithCap scored limit cap).map Track.id).Nodup :=
  pickGo_nodup limit cap scored [] [] [] (by simp) (by simp)

theorem pickWithCap_cap (scored : List Track) (limit cap : Nat) (k : String) :
    ((pickWithCap scored limit cap).filter fun t => artistKey t == k).length ≤ cap :=
  pickGo_cap limit cap scored [] [] [] (fun _ => by simp [countOf]) (by simp) k

theorem pickWithCap_ne_nil (t : Track) (rest : List Track) (limit cap : Nat)
    (hlim : 1 ≤ limit) (hcap : 1 ≤ cap) :
    pickWithCap (t :: rest) limit cap ≠ [] := by
  obtain ⟨tail, htail⟩ :=
    pickGo_append limit cap rest [t.id] (bumpCount [] (artistKey t)) [t]
  have h1 : ¬ limit ≤ ([] : List Track).length := by simp; omega
  have h3 : ¬ cap ≤ countOf [] (artistKey t) := by simp [countOf]; omega
  simp only [pickWithCap, pickGo, h1, if_neg, List.not_mem_nil, h3]
  simp [htail]

theorem selectTracks_cases (scored : List Track) (limit : Nat) :
    selectTracks scored limit = pickWithCap scored limit 1 ∨
    selectTracks scored limit = pickWithCap scored limit 2 := by
  by_cases h : (pickWithCap scored limit 1).length < jsFloorMul07 limit
  · right; simp [selectTracks, h]
  · left; simp [selectTracks, h]

/-- C1: for every scored candidate pool and every requested limit, the final
pick of the Diversifier/Selector (two-pass capped greedy selection followed by
slice(0, limit)) has length at most the limit and contains no two entries with
the same track id. -/
theorem c1_final_pick_bounds (scored : List Track) (limit : Nat) :
    (finalPickOf scored limit).length ≤ limit ∧
    ((finalPickOf scored limit).map Track.id).Nodup := by
  constructor
  · simp only [finalPickOf]
    rw [List.length_take]
    exact min_le_left _ _
  · rcases selectTracks_cases scored limit with h | h <;>
      · simp only [finalPickOf, h, List.map_take]
        exact (List.take_sublist _ _).nodup (pickWithCap_nodup scored limit _)

/-- C2 counterexample: with seven scored candidates over six distinct artists
and requested limit 9, the primary cap-1 pass yields 6 tracks, which is fewer
than 70 percent of the limit (60 < 63), so the claim mandates the relaxed
cap-2 pass; the code compares against Math.floor(9 * 0.7) = 6 instead and
keeps the 6-track primary result, so the claimed selector and the implemented
selector disagree at this input. -/
theorem c2_threshold_counterexample :
    selectTracksClaim scoredC2 9 ≠ selectTracks scoredC2 9 ∧
    (pickWithCap scoredC2 9 1).length = 6 ∧
    10 * (pickWithCap scoredC2 9 1).length < 7 * 9 ∧
    jsFloorMul07 9 = 6 ∧
    (selectTracks scoredC2 9).length = 6 ∧
    (selectTracksClaim scoredC2 9).length = 7 := by
  refine ⟨by decide, by decide, by decide, by decide, by decide, by decide⟩

/-- C2 (amended): the selector runs the greedy pass over the scored list with
a per-artist cap of 1, keyed by artistKey (first artist id, else first artist
name, else "unknown"); the relaxed cap-2 re-run is taken if and only if the
primary pass yields fewer than Math.floor(limit * 0.7) tracks, the floor being
computed on IEEE-754 doubles (jsFloorMul07) rather than as the exact 70
percent of the limit; each pass admits at most cap tracks per artist key and
never selects the same track id twice. -/
theorem c2_relaxed_pass_threshold (scored : List Track) (limit : Nat) :
    ((pickWithCap scored limit 1).length < jsFloorMul07 limit ∧
        selectTracks scored limit = pickWithCap scored limit 2 ∨
      jsFloorMul07 limit ≤ (pickWithCap scored limit 1).length ∧
        selectTracks scored limit = pickWithCap scored limit 1) ∧
    (∀ cap k, ((pickWithCap scored limit cap).filter fun t => artistKey t == k).length ≤ cap) ∧
    ((pickWithCap scored limit 2).map Track.id).Nodup := by
  refine ⟨?_, fun cap k => pickWithCap_cap scored limit cap k,
    pickWithCap_nodup scored limit 2⟩
  by_cases h : (pickWithCap scored limit 1).length < jsFloorMul07 limit
  · left; exact ⟨h, by simp [selectTracks, h]⟩
  · right; exact ⟨le_of_not_lt h, by simp [selectTracks, h]⟩

/-! ## Lemmas about the merge-by-id pool construction -/

theorem mergeById_nodup (cap : Nat) (items : List Track) :
    ∀ pool : List Track, (pool.map Track.id).Nodup →
    ((mergeById cap pool items).map Track.id).Nodup := by
  induction items with
  | nil => intro pool hnd; simpa [mergeById] using hnd
  | cons t ts ih =>
    intro pool hnd
    simp only [mergeById]
    by_cases h1 : t.id = "" ∨ t.id ∈ pool.map Track.id
    · rw [if_pos h1]; exact ih pool hnd
    · rw [if_neg h1]
      push_neg at h1
      have hnd2 := nodup_append_singleton pool t hnd h1.2
      by_cases h2 : cap ≤ (pool ++ [t]).length
      · rw [if_pos h2]; exact hnd2
      · rw [if_neg h2]; exact ih (pool ++ [t]) hnd2

theorem mergeById_le (cap : Nat) (items : List Track) :
    ∀ pool : List Track, pool.length < cap →
    (mergeById cap pool items).length ≤ cap := by
  induction items with
  | nil => intro pool hlt; simp [mergeById]; omega
  | cons t ts ih =>
    intro pool hlt
    simp only [mergeById]
    by_cases h1 : t.id = "" ∨ t.id ∈ pool.map Track.id
    · rw [if_pos h1]; exact ih pool hlt
    · rw [if_neg h1]
      by_cases h2 : cap ≤ (pool ++ [t]).length
      · rw [if_pos h2]
        have : (pool ++ [t]).length = pool.length + 1 := by simp
        omega
      · rw [if_neg h2]
        apply ih
        have : (pool ++ [t]).length = pool.length + 1 := by simp
        omega

theorem topTracksGo_nodup (env : CatalogEnv) (budget : Nat) (aids : List String) :
    ∀ pool : List Track, (pool.map Track.id).Nodup →
    ((topTracksGo env budget aids pool).map Track.id).Nodup := by
  induction aids with
  | nil => intro pool hnd; simpa [topTracksGo] using hnd
  | cons aid rest ih =>
    intro pool hnd
    simp only [topTracksGo]
    by_cases h1 : aid = "" ∨ budget ≤ pool.length
    · rw [if_pos h1]; exact ih pool hnd
    · rw [if_neg h1]
      exact ih (mergeById budget pool (env.topTracks aid))
        (mergeById_nodup budget (env.topTracks aid) pool hnd)

theorem topTracksGo_le (env : CatalogEnv) (budget : Nat) (aids : List String) :
    ∀ pool : List Track, pool.length ≤ budget →
    (topTracksGo env budget aids pool).length ≤ budget := by
  induction aids with
  | nil => intro pool hle; simpa [topTracksGo] using hle
  | cons aid rest ih =>
    intro pool hle
    simp only [topTracksGo]
    by_cases h1 : aid = "" ∨ budget ≤ pool.length
    · rw [if_pos h1]; exact ih pool hle
    · rw [if_neg h1]
      have hlt : pool.length < budget := by
        rcases not_or.mp h1 with ⟨_, h⟩; omega
      exact ih (mergeById budget pool (env.topTracks aid))
        (mergeById_le budget (env.topTracks aid) pool hlt)

theorem searchGo_nodup (env : CatalogEnv) (cap : Nat) (qs : List String) :
    ∀ pool : List Track, (pool.map Track.id).Nodup →
    ((searchGo env cap qs pool).map Track.id).Nodup := by
  induction qs with
  | nil => intro pool hnd; simpa [searchGo] using hnd
  | cons q rest ih =>
    intro pool hnd
    have hnd2 := mergeById_nodup cap ((env.searchQuery q).map searchProj) pool hnd
    simp only [searchGo]
    by_cases h1 : cap ≤ (mergeById cap pool ((env.searchQuery q).map searchProj)).length
    · rw [if_pos h1]; exact hnd2
    · rw [if_neg h1]; exact ih _ hnd2

theorem getTopTracksForArtists_nodup (env : CatalogEnv) (ids : List String) (lpa : Nat) :
    ((getTopTracksForArtists env ids lpa).map Track.id).Nodup :=
  topTracksGo_nodup env _ ids [] (by simp)

/-- C4: the candidate pool built by the CandidateGenerator never contains two
Track entries with the same id, whichever of the two source paths (artist top
tracks, structured search) contributed them; the artist-top-tracks sub-pool
already satisfies the same invariant on its own. -/
theorem c4_candidate_pool_nodup (env : CatalogEnv) (params : HybridParams) :
    ((candidatePool env params).map Track.id).Nodup ∧
    ∀ (ids : List String) (lpa : Nat),
      ((getTopTracksForArtists env ids lpa).map Track.id).Nodup := by
  refine ⟨?_, fun ids lpa => getTopTracksForArtists_nodup env ids lpa⟩
  simp only [candidatePool]
  split
  · exact searchGo_nodup env _ _ _ (getTopTracksForArtists_nodup env _ 3)
  · exact getTopTracksForArtists_nodup env _ 3

/-- C9 counterexample: with two artist ids [a, b] and limitPerArtist 3, the
aggregate budget is 2 * 3 = 6 and artist a alone (seven top tracks in the
catalog) contributes 6 tracks to the merged pool — double the claimed
per-artist cap of 3 — while artist b contributes none. -/
theorem c9_per_artist_cap_counterexample :
    ((getTopTracksForArtists envC9 ["a", "b"] 3).filter
        (fun t => ((envC9.topTracks ("a")).map Track.id).contains t.id)).length = 6 ∧
    ((getTopTracksForArtists envC9 ["a", "b"] 3).filter
        (fun t => ((envC9.topTracks ("b")).map Track.id).contains t.id)).length = 0 ∧
    ¬ (6 : Nat) ≤ 3 := by
  refine ⟨by decide, by decide, by decide⟩

/-- C9 (amended): getTopTracksForArtists caps the merged pool at the aggregate
budget artistIds.length * max(1, limitPerArtist) in total; it does not bound
the contribution of an individual artist, so one artist may use up the whole
budget (see the counterexample). -/
theorem c9_top_tracks_total_budget (env : CatalogEnv) (ids : List String) (lpa : Nat) :
    (getTopTracksForArtists env ids lpa).length ≤ ids.length * max 1 lpa :=
  topTracksGo_le env _ ids [] (by simp)

/-! ## Lemmas about scoring, clamping and the full pipeline -/

theorem insertDesc_length (x : Track × ℚ) (l : List (Track × ℚ)) :
    (insertDesc x l).length = l.length + 1 := by
  induction l with
  | nil => simp [insertDesc]
  | cons y ys ih =>
    by_cases h : y.2 ≤ x.2
    · simp [insertDesc, h]
    · simp [insertDesc, h, ih]

theorem sortDesc_length (l : List (Track × ℚ)) :
    (sortDesc l).length = l.length := by
  induction l with
  | nil => simp [sortDesc]
  | cons x xs ih => simp [sortDesc, insertDesc_length, ih]

theorem scoredOf_length (gm : String → List String) (range : Option (Int × Int))
    (kwSet : List String) (l : List Track) :
    (scoredOf gm range kwSet l).length = l.length := by
  simp [scoredOf, sortDesc_length]

theorem scoredOf_ne_nil (gm : String → List String) (range : Option (Int × Int))
    (kwSet : List String) (l : List Track) (h : l ≠ []) :
    scoredOf gm range kwSet l ≠ [] := by
  intro hc
  apply h
  have hlen := scoredOf_length gm range kwSet l
  rw [hc] at hlen
  exact (List.length_eq_zero.mp hlen.symm)

theorem clampNat_pos (o : Option Int) : 1 ≤ clampNat o := by
  have h : (1 : Int) ≤ min 100 (max 1 (o.getD 20)) :=
    le_min (by norm_num) (le_max_left _ _)
  unfold clampNat
  omega

theorem clampNat_le_100 (o : Option Int) : clampNat o ≤ 100 := by
  have h : min 100 (max 1 (o.getD 20)) ≤ (100 : Int) := min_le_left _ _
  unfold clampNat
  omega

theorem finalPickOf_ne_nil (scored : List Track) (limit : Nat)
    (h : scored ≠ []) (hlim : 1 ≤ limit) : finalPickOf scored limit ≠ [] := by
  match scored with
  | [] => exact absurd rfl h
  | t :: rest =>
    have hne : selectTracks (t :: rest) limit ≠ [] := by
      rcases selectTracks_cases (t :: rest) limit with h2 | h2 <;> rw [h2]
      · exact pickWithCap_ne_nil t rest limit 1 hlim (by norm_num)
      · exact pickWithCap_ne_nil t rest limit 2 hlim (by norm_num)
    simp only [finalPickOf]
    intro hc
    rcases List.take_eq_nil_iff.mp hc with h3 | h3
    · omega
    · exact hne h3

theorem buildHybrid_ne_nil (env : CatalogEnv) (params : HybridParams)
    (h : candidatePool env params ≠ []) :
    buildHybridRecommendations env params ≠ [] := by
  simp only [buildHybridRecommendations]
  apply finalPickOf_ne_nil _ _ ?_ (clampNat_pos _)
  apply scoredOf_ne_nil
  split
  · rename_i hcond
    intro hnil
    rw [hnil] at hcond
    simp at hcond
  · exact h

/-- C3: when the final candidate pool is empty the pipeline reports the
NoCandidates failure, and a successful pipeline result is never the empty
list (the selection of a non-empty pool is non-empty, since the clamped limit
is at least 1 and the greedy pass always admits the top-scored candidate).
The error-reporting wrapper is modelled from the spec because the route that
invokes buildHybridRecommendations is not under src/. -/
theorem c3_empty_pool_reports_no_candidates (env : CatalogEnv) (params : HybridParams) :
    (∀ l, runPipeline env params = Except.ok l → l ≠ []) ∧
    (candidatePool env params = [] →
      runPipeline env params = Except.error PipelineError.noCandidates) := by
  constructor
  · intro l hl
    by_cases hp : candidatePool env params = []
    · simp [runPipeline, hp] at hl
    · simp only [runPipeline, if_neg hp, Except.ok.injEq] at hl
      rw [← hl]
      exact buildHybrid_ne_nil env params hp
  · intro hp
    simp [runPipeline, hp]

/-- C10: the track list returned by buildHybridRecommendations never exceeds
min(100, max(1, requested limit)) entries, the limit defaulting to 20 when
unspecified; in particular it never exceeds 100 tracks. -/
theorem c10_limit_clamp_bound (env : CatalogEnv) (params : HybridParams) :
    (buildHybridRecommendations env params).length ≤
      (min 100 (max 1 (params.limit.getD 20))).toNat ∧
    (buildHybridRecommendations env params).length ≤ 100 := by
  have h1 : (buildHybridRecommendations env params).length ≤ clampNat params.limit := by
    simp only [buildHybridRecommendations, finalPickOf]
    rw [List.length_take]
    exact min_le_left _ _
  exact ⟨h1, h1.trans (clampNat_le_100 params.limit)⟩

/-! ## Lemmas about the genre normalizer -/

theorem findAlias_mem (s : String) (v : String) : ∀ entries : List AliasEntry,
    findAlias s entries = some v → v ∈ KNOWN_SPOTIFY_GENRES := by
  intro entries
  induction entries with
  | nil => intro h; simp [findAlias] at h
  | cons e rest ih =>
    intro h
    simp only [findAlias] at h
    by_cases hc : s ∈ e.keys ∧ e.value ∈ KNOWN_SPOTIFY_GENRES
    · rw [if_pos hc] at h
      obtain rfl : e.value = v := by simpa using h
      exact hc.2
    · rw [if_neg hc] at h
      exact ih h

theorem findFuzzy_mem (s : String) (v : String) : ∀ seeds : List String,
    findFuzzy s seeds = some v → v ∈ seeds := by
  intro seeds
  induction seeds with
  | nil => intro h; simp [findFuzzy] at h
  | cons seed rest ih =>
    intro h
    simp only [findFuzzy] at h
    by_cases hc : (strContains seed s || strContains s seed) = true
    · rw [if_pos hc] at h
      obtain rfl : seed = v := by simpa using h
      exact List.mem_cons_self _ _
    · rw [if_neg hc] at h
      exact List.mem_cons_of_mem _ (ih h)

theorem tryResolve_mem (t v : String) (h : tryResolve t = some v) :
    v ∈ KNOWN_SPOTIFY_GENRES := by
  simp only [tryResolve] at h
  by_cases h0 : sanitizeGenre t = ""
  · rw [if_pos h0] at h; exact absurd h (by simp)
  · rw [if_neg h0] at h
    by_cases h1 : sanitizeGenre t ∈ KNOWN_SPOTIFY_GENRES
    · rw [if_pos h1] at h
      obtain rfl : sanitizeGenre t = v := by simpa using h
      exact h1
    · rw [if_neg h1] at h
      cases halias : findAlias (sanitizeGenre t) GENRE_ALIAS_ENTRIES with
      | some w =>
        rw [halias] at h
        obtain rfl : w = v := by simpa using h
        exact findAlias_mem _ _ _ halias
      | none =>
        rw [halias] at h
        exact findFuzzy_mem _ _ _ h

theorem normGo_spec (inputs : List String) :
    ∀ (res unm : List String), res.Nodup → (∀ s ∈ res, s ∈ KNOWN_SPOTIFY_GENRES) →
    (normGo inputs res unm).1.Nodup ∧
    (∀ s ∈ (normGo inputs res unm).1, s ∈ KNOWN_SPOTIFY_GENRES) ∧
    (normGo inputs res unm).2 =
      unm ++ inputs.filter fun i => !(trimStr i == "") && (tryResolve i).isNone := by
  induction inputs with
  | nil => intro res unm hnd hmem; exact ⟨hnd, hmem, by simp [normGo]⟩
  | cons i rest ih =>
    intro res unm hnd hmem
    simp only [normGo]
    by_cases htrim : trimStr i = ""
    · rw [if_pos htrim]
      obtain ⟨a, b, c⟩ := ih res unm hnd hmem
      refine ⟨a, b, ?_⟩
      rw [c]
      congr 1
      simp [List.filter, htrim]
    · rw [if_neg htrim]
      cases hres : tryResolve i with
      | some m =>
        dsimp only
        have hnd2 : (if m ∈ res then res else res ++ [m]).Nodup := by
          by_cases hm : m ∈ res
          · simpa [hm] using hnd
          · simp only [if_neg hm]
            simp [List.nodup_append, hnd, hm]
        have hmem2 : ∀ s ∈ (if m ∈ res then res else res ++ [m]),
            s ∈ KNOWN_SPOTIFY_GENRES := by
          intro s hs
          by_cases hm : m ∈ res
          · exact hmem s (by simpa [hm] using hs)
          · rw [if_neg hm] at hs
            rcases List.mem_append.mp hs with hs | hs
            · exact hmem s hs
            · obtain rfl : s = m := by simpa using hs
              exact tryResolve_mem i s hres
        obtain ⟨a, b, c⟩ := ih _ unm hnd2 hmem2
        refine ⟨a, b, ?_⟩
        rw [c]
        congr 1
        simp [List.filter, htrim, hres]
      | none =>
        dsimp only
        obtain ⟨a, b, c⟩ := ih res (unm ++ [i]) hnd hmem
        refine ⟨a, b, ?_⟩
        rw [c]
        have hkeep : (!(trimStr i == "") && (tryResolve i).isNone) = true := by
          simp [htrim, hres]
        simp [List.filter, hkeep]

/-- C5 counterexample: when no term resolves (input "zzzq"), the live
normalizeGenres returns an empty seed list, not the first two fallback seeds
["pop", "rock"]; and four resolving terms produce four seeds, exceeding the
claimed cap of 3. -/
theorem c5_no_fallback_counterexample :
    (normalizeGenres ["zzzq"]).1 = [] ∧
    (normalizeGenres ["zzzq"]).2 = ["zzzq"] ∧
    FALLBACK_SEEDS.take 2 = ["pop", "rock"] ∧
    (normalizeGenres ["pop", "rock", "jazz", "folk"]).1 =
      ["pop", "rock", "jazz", "folk"] ∧
    3 < (normalizeGenres ["pop", "rock", "jazz", "folk"]).1.length := by
  refine ⟨by decide, by decide, by decide, by decide, by decide⟩

/-- C5 (amended): the live normalizeGenres returns the deduplicated resolved
seeds, each a member of the known vocabulary, in first-resolution order with
no cap on their number, and returns exactly the non-blank terms that resolved
to nothing as the unmatched list; no fallback seeds are injected when nothing
resolves (the seed list is then empty). -/
theorem c5_normalized_seed_shape (inputs : List String) :
    (normalizeGenres inputs).1.Nodup ∧
    (normalizeGenres inputs).1 ⊆ KNOWN_SPOTIFY_GENRES ∧
    (normalizeGenres inputs).2 =
      inputs.filter fun i => !(trimStr i == "") && (tryResolve i).isNone := by
  obtain ⟨a, b, c⟩ := normGo_spec inputs [] [] (by simp) (by simp)
  exact ⟨a, fun s hs => b s hs, by simpa using c⟩

/-- C6: the year-range extractor is a pure function from free text to an
optional inclusive range with extractYearRange("1990년대") = {1990, 1999},
extractYearRange("early 90s") = {1990, 1992},
extractYearRange("2010-2015") = {2010, 2015} and
extractYearRange("jazz") = null. (Modelled from the spec: the extractor is not
under src/.) -/
theorem c6_extract_year_range_examples :
    extractYearRange "1990년대" = some (1990, 1999) ∧
    extractYearRange "early 90s" = some (1990, 1992) ∧
    extractYearRange "2010-2015" = some (2010, 2015) ∧
    extractYearRange "jazz" = none := by
  refine ⟨by decide, by decide, by decide, by decide⟩

/-- C7 counterexample: the track by artist ar1, whose only genre tag is pop,
receives genreAffinity -0.7 from the code even though the run requested no
genre filter at all — genreScore does not depend on the requested genres, so
it cannot return the claimed neutral 0 in that case. -/
theorem c7_genre_affinity_counterexample :
    genreScore gmC7 tC7 = -((7 : ℚ)/10) ∧ -((7 : ℚ)/10) ≠ (0 : ℚ) := by
  constructor
  · have h : isRockish gmC7 tC7.artistIds = false := by decide
    simp [genreScore, h]
  · norm_num

/-- C7 (amended): the genreAffinity component is +1.5 exactly when some artist
of the candidate carries a genre tag containing one of the fixed rock-family
hint strings (case-insensitively), and -0.7 otherwise; it is independent of
which genre family, if any, the user requested (the hint set is always the
rock family). -/
theorem c7_genre_affinity_rock_only (gm : String → List String) (t : Track) :
    (genreScore gm t = (3 : ℚ)/2 ∧
      ∃ id ∈ t.artistIds, ∃ g ∈ gm id, ∃ h ∈ ROCK_HINTS,
        strContains (lowerStr g) h = true) ∨
    (genreScore gm t = -((7 : ℚ)/10) ∧
      ¬ ∃ id ∈ t.artistIds, ∃ g ∈ gm id, ∃ h ∈ ROCK_HINTS,
        strContains (lowerStr g) h = true) := by
  have hiff : isRockish gm t.artistIds = true ↔
      ∃ id ∈ t.artistIds, ∃ g ∈ gm id, ∃ h ∈ ROCK_HINTS,
        strContains (lowerStr g) h = true := by
    simp [isRockish, List.any_eq_true]
  by_cases h : isRockish gm t.artistIds
  · left
    exact ⟨by simp [genreScore, h], hiff.mp h⟩
  · right
    refine ⟨?_, fun hex => h (hiff.mpr hex)⟩
    have hb : isRockish gm t.artistIds = false := by
      simpa using h
    simp [genreScore, hb]

/-- C8 counterexample: one year outside the range 2000-2010 the component is
0.95 and two years outside it is 0.90; no linear decay that starts from the
inside value 1.2 can produce both, so the component outside the range is not
"the +1.2 value linearly decayed toward 0" — it decays from 1.0. -/
theorem c8_year_decay_counterexample :
    yearScore (some (2000, 2010)) tOut1 = (19 : ℚ)/20 ∧
    yearScore (some (2000, 2010)) tOut2 = (9 : ℚ)/10 ∧
    ¬ ∃ s : ℚ, max 0 ((6 : ℚ)/5 - s * 1) = (19 : ℚ)/20 ∧
        max 0 ((6 : ℚ)/5 - s * 2) = (9 : ℚ)/10 := by
  refine ⟨?_, ?_, ?_⟩
  · have h1 : ¬((2000 : Int) ≤ 2011 ∧ (2011 : Int) ≤ 2010) := by omega
    have h2 : min (2011 - 2000 : Int).natAbs (2011 - 2010 : Int).natAbs = 1 := by decide
    rw [show yearScore (some (2000, 2010)) tOut1 =
        max 0 (1 - ((min (2011 - 2000 : Int).natAbs (2011 - 2010 : Int).natAbs : Nat) : ℚ) / 20)
      from by simp [yearScore, tOut1, h1], h2]
    rw [max_eq_right (by norm_num : (0 : ℚ) ≤ 1 - (1 : Nat) / 20)]
    norm_num
  · have h1 : ¬((2000 : Int) ≤ 2012 ∧ (2012 : Int) ≤ 2010) := by omega
    have h2 : min (2012 - 2000 : Int).natAbs (2012 - 2010 : Int).natAbs = 2 := by decide
    rw [show yearScore (some (2000, 2010)) tOut2 =
        max 0 (1 - ((min (2012 - 2000 : Int).natAbs (2012 - 2010 : Int).natAbs : Nat) : ℚ) / 20)
      from by simp [yearScore, tOut2, h1], h2]
    rw [max_eq_right (by norm_num : (0 : ℚ) ≤ 1 - (2 : Nat) / 20)]
    norm_num
  · rintro ⟨s, h1, h2⟩
    rcases le_or_lt ((6 : ℚ)/5 - s * 1) 0 with h | h
    · rw [max_eq_left h] at h1
      norm_num at h1
    · rw [max_eq_right h.le] at h1
      have hs : s = 1/4 := by linarith
      subst hs
      have h3 : (6 : ℚ)/5 - (1/4) * 2 = 7/10 := by norm_num
      rw [h3, max_eq_right (by norm_num : (0 : ℚ) ≤ 7/10)] at h2
      norm_num at h2

/-- C8 (amended): yearProximity is the flat 0.2 when no year range was
extracted; with a range it is 0 for an unknown release year, +1.2 inside the
range, and outside the range max(0, 1.0 - dist/20) — a linear decay starting
from 1.0, not from the +1.2 inside value — where dist is the distance to the
nearer end of the range; in particular the outside value never exceeds 1. -/
theorem c8_year_proximity_decay (f t0 yr : Int) (tr : Track) :
    (yearScore none tr = (1 : ℚ)/5) ∧
    (tr.releaseYear = none → yearScore (some (f, t0)) tr = 0) ∧
    (tr.releaseYear = some yr → f ≤ yr → yr ≤ t0 →
      yearScore (some (f, t0)) tr = (6 : ℚ)/5) ∧
    (tr.releaseYear = some yr → ¬(f ≤ yr ∧ yr ≤ t0) →
      yearScore (some (f, t0)) tr =
          max 0 (1 - ((min (yr - f).natAbs (yr - t0).natAbs : Nat) : ℚ) / 20) ∧
      yearScore (some (f, t0)) tr ≤ 1) := by
  refine ⟨by simp [yearScore], ?_, ?_, ?_⟩
  · intro h
    simp [yearScore, h]
  · intro h h1 h2
    simp [yearScore, h, h1, h2]
  · intro h hout
    have heq : yearScore (some (f, t0)) tr =
        max 0 (1 - ((min (yr - f).natAbs (yr - t0).natAbs : Nat) : ℚ) / 20) := by
      simp [yearScore, h, hout]
    refine ⟨heq, ?_⟩
    rw [heq]
    apply max_le (by norm_num)
    have hd : (0 : ℚ) ≤ ((min (yr - f).natAbs (yr - t0).natAbs : Nat) : ℚ) / 20 := by
      positivity
    linarith
